import Mathlib

/-!
Verification of the CSV-to-Redshift loader (`csv2Redshift` lambda) of
DataBridgeAWS.  The Python source is embedded shallowly: pure helpers become
Lean functions, the remote S3 / Redshift Data API becomes an explicit oracle
environment, and the stateful call sequence is threaded through an explicit
state record that also accumulates a trace of the externally visible actions
(statement executions, object copies and deletes).
-/

set_option maxRecDepth 4000

namespace DataBridge

/-! ### Column-name sanitization (`clean_column_name`)

Python:
```
if not column: return "unnamed_column"
cleaned = ''.join(c if c.isalnum() else '_' for c in str(column).lower())
if cleaned[0].isdigit(): cleaned = 'col_' + cleaned
return cleaned
```
-/

/-- One step of the join-comprehension: keep an alphanumeric character,
replace anything else by an underscore. -/
def sanitizeChar (c : Char) : Char :=
  if c.isAlphanum then c else '_'

/-- The joined comprehension `''.join(c if c.isalnum() else '_' for c in
str(column).lower())`: lower-case every character, then sanitize each one. -/
def lowerSan (l : List Char) : List Char :=
  (l.map Char.toLower).map sanitizeChar

/-- The `if cleaned[0].isdigit(): cleaned = 'col_' + cleaned` step. -/
def digitFix (l : List Char) : List Char :=
  if (l.headD ' ').isDigit then 'c' :: 'o' :: 'l' :: '_' :: l else l

/-- Function `clean_column_name` from the source: lower-case, map non-alphanumerics to
underscores, prefix `col_` when the result starts with a digit, and map the
empty string to `unnamed_column`. -/
def clean_column_name (column : String) : String :=
  if column = "" then "unnamed_column"
  else String.mk (digitFix (lowerSan column.data))

theorem toNat_ofNat_of_lt {n : Nat} (h : n < 0xd800) :
    (Char.ofNat n).toNat = n := by
  unfold Char.ofNat
  rw [dif_pos (Or.inl h)]
  rfl

theorem toLower_toLower (c : Char) : c.toLower.toLower = c.toLower := by
  unfold Char.toLower
  by_cases h : c.toNat ≥ 65 ∧ c.toNat ≤ 90
  · rw [if_pos h]
    have h32 : (65 : Nat) + 32 ≤ c.toNat + 32 := by omega
    have hv : c.toNat + 32 < 0xd800 := by omega
    rw [toNat_ofNat_of_lt hv]
    rw [if_neg (by omega)]
  · rw [if_neg h, if_neg h]

theorem sanitize_lower_idem (c : Char) :
    sanitizeChar (sanitizeChar c.toLower).toLower = sanitizeChar c.toLower := by
  unfold sanitizeChar
  by_cases h : c.toLower.isAlphanum
  · rw [if_pos h, toLower_toLower, if_pos h]
  · rw [if_neg h]
    decide

theorem lowerSan_lowerSan (l : List Char) : lowerSan (lowerSan l) = lowerSan l := by
  unfold lowerSan
  induction l with
  | nil => rfl
  | cons a t ih =>
    simp only [List.map_cons]
    rw [sanitize_lower_idem a]
    simp only [List.map_cons] at ih
    rw [ih]

theorem lowerSan_ne_nil {l : List Char} (h : l ≠ []) : lowerSan l ≠ [] := by
  unfold lowerSan
  simpa using h

theorem digitFix_ne_nil {l : List Char} (h : l ≠ []) : digitFix l ≠ [] := by
  unfold digitFix
  split
  · simp
  · exact h

theorem lowerSan_digitFix_lowerSan (l : List Char) :
    lowerSan (digitFix (lowerSan l)) = digitFix (lowerSan l) := by
  by_cases h : ((lowerSan l).headD ' ').isDigit
  · have e1 : digitFix (lowerSan l) = 'c' :: 'o' :: 'l' :: '_' :: lowerSan l := by
      rw [digitFix, if_pos h]
    rw [e1]
    show lowerSan ('c' :: 'o' :: 'l' :: '_' :: lowerSan l) = _
    unfold lowerSan
    simp only [List.map_cons]
    have h₁ : sanitizeChar 'c'.toLower = 'c' := by decide
    have h₂ : sanitizeChar 'o'.toLower = 'o' := by decide
    have h₃ : sanitizeChar 'l'.toLower = 'l' := by decide
    have h₄ : sanitizeChar '_'.toLower = '_' := by decide
    rw [h₁, h₂, h₃, h₄]
    have := lowerSan_lowerSan l
    unfold lowerSan at this
    rw [this]
  · have e1 : digitFix (lowerSan l) = lowerSan l := by rw [digitFix, if_neg h]
    rw [e1]
    exact lowerSan_lowerSan l

theorem digitFix_digitFix (l : List Char) : digitFix (digitFix l) = digitFix l := by
  by_cases h : (l.headD ' ').isDigit
  · have e1 : digitFix l = 'c' :: 'o' :: 'l' :: '_' :: l := by
      rw [digitFix, if_pos h]
    rw [e1, digitFix, if_neg]
    rw [List.headD_cons]
    decide
  · have e1 : digitFix l = l := by rw [digitFix, if_neg h]
    rw [e1, e1]

/-- C6: column-name sanitization is deterministic (it is a function) and
idempotent: `clean_column_name (clean_column_name x) = clean_column_name x`
for every input string, with empty input mapped to the fixed placeholder
`unnamed_column`. -/
theorem c6_clean_column_name_idempotent (x : String) :
    clean_column_name (clean_column_name x) = clean_column_name x := by
  by_cases hx : x = ""
  · subst hx
    decide
  · have hl : x.data ≠ [] := by
      intro h
      exact hx (String.ext (by simpa using h))
    have e1 : clean_column_name x = String.mk (digitFix (lowerSan x.data)) := by
      rw [clean_column_name, if_neg hx]
    have hne : String.mk (digitFix (lowerSan x.data)) ≠ "" := by
      intro h
      have : digitFix (lowerSan x.data) = [] := by
        simpa [String.ext_iff] using h
      exact digitFix_ne_nil (lowerSan_ne_nil hl) this
    rw [e1, clean_column_name, if_neg hne]
    show String.mk (digitFix (lowerSan (digitFix (lowerSan x.data)))) = _
    rw [lowerSan_digitFix_lowerSan, digitFix_digitFix]

/-! ### Type detection (`detect_data_type`)

The source inspects the pandas *dtype* of the column, not the individual
values: `is_datetime64_any_dtype`, `is_bool_dtype`, `is_integer_dtype`,
`is_float_dtype`, `is_string_dtype` in that order, after first returning
`VARCHAR(256)` when the column is empty once nulls are dropped.  A `Series`
is therefore a dtype tag together with the cells, where a cell is `none`
for a null (NaN) and `some s` for a value whose textual form is `s`. -/

inductive PdDtype
  | datetime64
  | bool
  | int64
  | float64
  | object
  | other
deriving DecidableEq, Repr

structure Series where
  dtype : PdDtype
  values : List (Option String)
deriving DecidableEq, Repr

/-- Python `values.dropna()` — the non-null cells. -/
def dropna (values : List (Option String)) : List String :=
  values.filterMap id

/-- Python `str(v)` applied to a cell: pandas renders a missing value (NaN) as the
three-character string `nan` under `.astype(str)`. -/
def cellStr (v : Option String) : String :=
  match v with
  | some s => s
  | none => "nan"

/-- Python `values.astype(str).str.len().max()` — maximum rendered length over *all*
cells (the source does not drop nulls before measuring). -/
def maxStrLen (values : List (Option String)) : Nat :=
  (values.map (fun v => (cellStr v).length)).foldr max 0

/-- Function `detect_data_type` from the source. -/
def detect_data_type (s : Series) : String :=
  if (dropna s.values).length = 0 then "VARCHAR(256)"
  else
    match s.dtype with
    | .datetime64 => "TIMESTAMP"
    | .bool => "BOOLEAN"
    | .int64 => "BIGINT"
    | .float64 => "DECIMAL(18,2)"
    | .object =>
      let varchar_length := min (max (maxStrLen s.values * 2) 256) 65535
      "VARCHAR(" ++ toString varchar_length ++ ")"
    | .other => "VARCHAR(256)"

/-- The claim's reading of "parses as an integer with no fractional
component" for a raw textual cell value: an optional minus sign followed by
one or more digits. -/
def parsesAsInt (v : String) : Bool :=
  match v.data with
  | [] => false
  | '-' :: rest => !rest.isEmpty && rest.all Char.isDigit
  | l => l.all Char.isDigit

/-- Maximum string length over the non-null values only — the quantity named
by the specification for the `VARCHAR` capacity. -/
def maxNonNullLen (values : List (Option String)) : Nat :=
  ((dropna values).map String.length).foldr max 0

/-- A well-formed result of type inference: one of the five storage types. -/
def IsInferredType (t : String) : Prop :=
  t = "TIMESTAMP" ∨ t = "BOOLEAN" ∨ t = "BIGINT" ∨ t = "DECIMAL(18,2)" ∨
    ∃ n : Nat, t = "VARCHAR(" ++ toString n ++ ")"

/-- C4 counterexample: a column whose non-null values are the integer texts
`"1"` and `"2"` (object dtype, as a textual column is carried) — every value
parses as an integer with no fractional component, yet `detect_data_type`
does not return `BIGINT`: the source dispatches on the pandas dtype, so a
textual column falls through to the `VARCHAR` branch. -/
theorem c4_text_integers_not_bigint :
    (∀ v ∈ dropna [some "1", some "2"], parsesAsInt v = true) ∧
      detect_data_type ⟨PdDtype.object, [some "1", some "2"]⟩ ≠ "BIGINT" := by
  constructor
  · decide
  · decide

/-- C4 (amended): for every column sample carried with an integer dtype and
at least one non-null value, `detect_data_type` returns the wide integer
type `BIGINT`, taking priority over the decimal and text branches; integer
values represented as text (object dtype) instead fall into the `VARCHAR`
branch. -/
theorem c4_integer_dtype_bigint (vals : List (Option String))
    (h : dropna vals ≠ []) :
    detect_data_type ⟨PdDtype.int64, vals⟩ = "BIGINT" := by
  rw [detect_data_type, if_neg (by simpa using h)]

theorem c4_integer_dtype_bigint_witness :
    dropna [some "5", none] ≠ [] ∧
      detect_data_type ⟨PdDtype.int64, [some "5", none]⟩ = "BIGINT" :=
  ⟨by decide, c4_integer_dtype_bigint [some "5", none] (by decide)⟩

theorem maxStrLen_bounds (v : List (Option String)) :
    maxNonNullLen v ≤ maxStrLen v ∧ maxStrLen v ≤ max (maxNonNullLen v) 3 := by
  induction v with
  | nil =>
    constructor <;> simp [maxNonNullLen, maxStrLen, dropna]
  | cons a t ih =>
    cases a with
    | none =>
      have e1 : maxStrLen (none :: t) = max 3 (maxStrLen t) := by
        show max ("nan".length) _ = _
        rfl
      have e2 : maxNonNullLen (none :: t) = maxNonNullLen t := by
        simp [maxNonNullLen, dropna]
      omega
    | some s =>
      have e1 : maxStrLen (some s :: t) = max s.length (maxStrLen t) := rfl
      have e2 : maxNonNullLen (some s :: t) = max s.length (maxNonNullLen t) := by
        simp [maxNonNullLen, dropna]
      omega

theorem clamp_maxStrLen_eq (v : List (Option String)) :
    min (max (maxStrLen v * 2) 256) 65535 =
      min (max (maxNonNullLen v * 2) 256) 65535 := by
  have h := maxStrLen_bounds v
  omega

/-- C7: a column that falls through to the text case (object/string dtype,
sample nonempty after null removal) is typed `VARCHAR(capacity)` with
capacity the maximum string length of the non-null values doubled, clamped
to at least 256 and at most 65535.  (The source measures null cells too, as
the three-letter string `nan`, but under the 256 lower clamp this never
changes the emitted capacity.) -/
theorem c7_varchar_capacity (vals : List (Option String))
    (h : dropna vals ≠ []) :
    detect_data_type ⟨PdDtype.object, vals⟩ =
      "VARCHAR(" ++ toString (min (max (maxNonNullLen vals * 2) 256) 65535) ++ ")" := by
  rw [detect_data_type, if_neg (by simpa using h)]
  show "VARCHAR(" ++ toString (min (max (maxStrLen vals * 2) 256) 65535) ++ ")" = _
  rw [clamp_maxStrLen_eq]

theorem c7_varchar_capacity_witness :
    dropna [some "x"] ≠ [] ∧
      detect_data_type ⟨PdDtype.object, [some "x"]⟩ =
        "VARCHAR(" ++ toString (min (max (maxNonNullLen [some "x"] * 2) 256) 65535) ++ ")" :=
  ⟨by decide, c7_varchar_capacity [some "x"] (by decide)⟩

/-- C8: type detection is total — it returns a well-formed storage type for
every series — and a sample that is empty after removing nulls resolves to
the safe default `VARCHAR(256)`. -/
theorem c8_total_safe_default (s : Series) :
    IsInferredType (detect_data_type s) ∧
      (dropna s.values = [] → detect_data_type s = "VARCHAR(256)") := by
  have hvar : ∀ n : Nat, IsInferredType ("VARCHAR(" ++ toString n ++ ")") :=
    fun n => Or.inr (Or.inr (Or.inr (Or.inr ⟨n, rfl⟩)))
  have h256 : IsInferredType "VARCHAR(256)" := hvar 256
  obtain ⟨d, vals⟩ := s
  constructor
  · rw [detect_data_type]
    by_cases h : (dropna vals).length = 0
    · rw [if_pos h]
      exact h256
    · rw [if_neg h]
      cases d
      · exact Or.inl rfl
      · exact Or.inr (Or.inl rfl)
      · exact Or.inr (Or.inr (Or.inl rfl))
      · exact Or.inr (Or.inr (Or.inr (Or.inl rfl)))
      · exact hvar _
      · exact h256
  · intro h
    rw [detect_data_type, if_pos (by simp [h])]

theorem c8_total_safe_default_witness :
    detect_data_type ⟨PdDtype.other, [none]⟩ = "VARCHAR(256)" :=
  (c8_total_safe_default ⟨PdDtype.other, [none]⟩).2 (by decide)

/-! ### The remote environment

The S3 client and the Redshift Data API are oracles.  Statements are issued
one at a time; the n-th `execute_statement` call of a run is given handle n.
`status sid i` is the status the i-th `describe_statement` poll of statement
`sid` reports; `statementResult sid` is what `get_statement_result` returns,
with `.error ()` standing for `ResourceNotFoundException` ("no rows to
fetch") and the rows carrying the `longValue` fields the source reads. -/

/-- A `pd.DataFrame`: ordered named columns. -/
structure DataFrame where
  cols : List (String × Series)
deriving DecidableEq, Repr

inductive QStatus
  | finished
  | failed
  | aborted
  | running
deriving DecidableEq, Repr

structure Env where
  execOutcome : Nat → Except String Unit
  status : Nat → Nat → QStatus
  statusError : Nat → Nat → String
  statementResult : Nat → Except Unit (List (List Int))
  listObjects : Nat → Except String (List String)
  getOutcome : String → Except String String
  readCsv : String → Except String DataFrame
  copyOutcome : String → Except String Unit
  deleteOutcome : String → Except String Unit

/-! ### `wait_for_query_completion`

Python: poll `describe_statement` up to `max_retries = 60` times; on
`FINISHED` fetch the result when expected (tolerating
`ResourceNotFoundException` as "no results"); on `FAILED`/`ABORTED` raise;
otherwise sleep 5 seconds and retry; raise on exhausting the budget. -/

def waitAux (env : Env) (sid : Nat) (expect : Bool) (retry : Nat) :
    Nat → Except String (Option (List (List Int)))
  | 0 => .error "Query timed out waiting for completion"
  | fuel + 1 =>
    match env.status sid retry with
    | .finished =>
      if expect then
        match env.statementResult sid with
        | .ok r => .ok (some r)
        | .error _ => .ok none
      else .ok none
    | .failed =>
      .error ("Query failed with status FAILED: " ++ env.statusError sid retry)
    | .aborted =>
      .error ("Query failed with status ABORTED: " ++ env.statusError sid retry)
    | .running => waitAux env sid expect (retry + 1) fuel

def wait_for_query_completion (env : Env) (sid : Nat) (expect : Bool) :
    Except String (Option (List (List Int))) :=
  waitAux env sid expect 0 60

theorem waitAux_ok_iff (env : Env) (sid : Nat) (expect : Bool) :
    ∀ (fuel retry : Nat),
      (∃ v, waitAux env sid expect retry fuel = .ok v) ↔
        ∃ j, j < fuel ∧ env.status sid (retry + j) = .finished ∧
          ∀ l, l < j → env.status sid (retry + l) = .running := by
  intro fuel
  induction fuel with
  | zero =>
    intro retry
    constructor
    · rintro ⟨v, hv⟩
      simp [waitAux] at hv
    · rintro ⟨j, hj, -⟩
      omega
  | succ fuel ih =>
    intro retry
    rw [waitAux]
    rcases hst : env.status sid retry with _ | _ | _ | _
    · constructor
      · intro _
        exact ⟨0, by omega, by simpa using hst, fun l hl => by omega⟩
      · intro _
        cases expect
        · exact ⟨none, rfl⟩
        · rcases hr : env.statementResult sid with _ | r
          · exact ⟨none, by simp [hr]⟩
          · exact ⟨some r, by simp [hr]⟩
    · constructor
      · rintro ⟨v, hv⟩
        simp at hv
      · rintro ⟨j, hj, hfin, hrun⟩
        rcases Nat.eq_zero_or_pos j with rfl | hpos
        · rw [Nat.add_zero] at hfin
          rw [hst] at hfin
          cases hfin
        · have := hrun 0 hpos
          rw [Nat.add_zero, hst] at this
          cases this
    · constructor
      · rintro ⟨v, hv⟩
        simp at hv
      · rintro ⟨j, hj, hfin, hrun⟩
        rcases Nat.eq_zero_or_pos j with rfl | hpos
        · rw [Nat.add_zero] at hfin
          rw [hst] at hfin
          cases hfin
        · have := hrun 0 hpos
          rw [Nat.add_zero, hst] at this
          cases this
    · rw [ih (retry + 1)]
      constructor
      · rintro ⟨j, hj, hfin, hrun⟩
        refine ⟨j + 1, by omega, by rw [show retry + (j + 1) = retry + 1 + j by omega]; exact hfin, ?_⟩
        intro l hl
        rcases Nat.eq_zero_or_pos l with rfl | hpos
        · simpa using hst
        · have := hrun (l - 1) (by omega)
          rw [show retry + 1 + (l - 1) = retry + l by omega] at this
          exact this
      · rintro ⟨j, hj, hfin, hrun⟩
        rcases Nat.eq_zero_or_pos j with rfl | hpos
        · rw [Nat.add_zero, hst] at hfin
          cases hfin
        · refine ⟨j - 1, by omega, by rw [show retry + 1 + (j - 1) = retry + j by omega]; exact hfin, ?_⟩
          intro l hl
          have := hrun (l + 1) (by omega)
          rw [show retry + (l + 1) = retry + 1 + l by omega] at this
          exact this

theorem waitAux_finished (env : Env) (sid : Nat) (expect : Bool) :
    ∀ (fuel retry j : Nat), j < fuel →
      env.status sid (retry + j) = .finished →
      (∀ l, l < j → env.status sid (retry + l) = .running) →
      waitAux env sid expect retry fuel =
        .ok (if expect then (env.statementResult sid).toOption else none) := by
  intro fuel
  induction fuel with
  | zero =>
    intro retry j hj
    omega
  | succ fuel ih =>
    intro retry j hj hfin hrun
    rw [waitAux]
    rcases Nat.eq_zero_or_pos j with rfl | hpos
    · rw [Nat.add_zero] at hfin
      rw [hfin]
      cases expect
      · rfl
      · cases hr : env.statementResult sid <;> simp [hr, Except.toOption]
    · have h0 := hrun 0 hpos
      rw [Nat.add_zero] at h0
      rw [h0]
      refine ih (retry + 1) (j - 1) (by omega) ?_ ?_
      · rw [show retry + 1 + (j - 1) = retry + j by omega]
        exact hfin
      · intro l hl
        have := hrun (l + 1) (by omega)
        rw [show retry + (l + 1) = retry + 1 + l by omega] at this
        exact this

/-- C9: the waiter yields a result exactly when a `FINISHED` status is
observed within the 60-poll budget before any `FAILED`/`ABORTED` status (so
it raises exactly on `FAILED`/`ABORTED` or on exhausting the budget), and on
`FINISHED` with a result expected it returns the fetched result set, with a
`ResourceNotFoundException` ("no rows to fetch") treated as a non-error
empty result rather than a failure. -/
theorem c9_waiter_contract (env : Env) (sid : Nat) (expect : Bool) :
    ((∃ v, wait_for_query_completion env sid expect = .ok v) ↔
      ∃ j, j < 60 ∧ env.status sid j = .finished ∧
        ∀ l, l < j → env.status sid l = .running) ∧
    (∀ j, j < 60 → env.status sid j = .finished →
      (∀ l, l < j → env.status sid l = .running) →
      wait_for_query_completion env sid true =
        .ok (env.statementResult sid).toOption) := by
  constructor
  · have h := waitAux_ok_iff env sid expect 60 0
    simpa using h
  · intro j hj hfin hrun
    have h := waitAux_finished env sid true 60 0 j hj (by simpa using hfin)
      (fun l hl => by simpa using hrun l hl)
    simpa using h

/-! ### Discovery (`list_processed_files`, `wait_for_file_processing`)

`list_processed_files` lists the `processed/` prefix and keeps the keys
ending in `.csv` (case-insensitively), degrading to the empty list on a
listing error.  `wait_for_file_processing` polls it every 5 seconds while
the elapsed time is below `max_wait_time` (default 300), counting
consecutive unchanged listings; after 12 consecutive stable polls (60
seconds) it returns the current set, and at the deadline it returns the
last remembered set.  The sets a run observes are Python `set`s, modelled
as `Finset`s; the second component of `wfpAux` counts the polls consumed,
so that "when" the watcher returns is part of the model. -/

/-- Python `str.lower()` (character-wise, as in `clean_column_name`). -/
def strLower (s : String) : String :=
  String.mk (s.data.map Char.toLower)

/-- Python `str.endswith(suffix)`. -/
def strEndsWith (s suffix : String) : Bool :=
  List.isPrefixOf suffix.data.reverse s.data.reverse

def list_processed_files (env : Env) (poll : Nat) : List String :=
  match env.listObjects poll with
  | .error _ => []
  | .ok keys => keys.filter (fun k => strEndsWith (strLower k) ".csv")

def listedSet (env : Env) (poll : Nat) : Finset String :=
  (list_processed_files env poll).toFinset

def wfpAux (env : Env) (prev : Finset String) (stable poll : Nat) :
    Nat → Finset String × Nat
  | 0 => (prev, 0)
  | fuel + 1 =>
    let current := listedSet env poll
    if current = prev then
      if stable + 1 ≥ 12 then (current, 1)
      else
        let r := wfpAux env prev (stable + 1) (poll + 1) fuel
        (r.1, r.2 + 1)
    else
      let r := wfpAux env current 0 (poll + 1) fuel
      (r.1, r.2 + 1)

def wait_for_file_processing (env : Env) (max_wait_time : Nat := 300) :
    Finset String :=
  (wfpAux env ∅ 0 0 ((max_wait_time + 4) / 5)).1

theorem wfpAux_stable (env : Env) (A : Finset String) :
    ∀ (fuel stable poll : Nat), stable < 12 → 12 - stable ≤ fuel →
      (∀ j, poll ≤ j → listedSet env j = A) →
      wfpAux env A stable poll fuel = (A, 12 - stable) := by
  intro fuel
  induction fuel with
  | zero =>
    intro stable poll h12 hf
    omega
  | succ fuel ih =>
    intro stable poll h12 hf hall
    rw [wfpAux]
    have hc : listedSet env poll = A := hall poll (Nat.le_refl _)
    simp only [hc, if_pos rfl]
    by_cases hs : stable + 1 ≥ 12
    · rw [if_pos hs]
      have h1 : 12 - stable = 1 := by omega
      rw [h1]
      simp
    · rw [if_neg hs]
      have h2 := ih (stable + 1) (poll + 1) (by omega) (by omega)
        (fun j hj => hall j (by omega))
      rw [h2]
      have h3 : 12 - (stable + 1) + 1 = 12 - stable := by omega
      rw [h3]
      simp

theorem wfpAux_all_change (env : Env) :
    ∀ (fuel stable poll : Nat) (prev : Finset String), 1 ≤ fuel →
      prev ≠ listedSet env poll →
      (∀ j, listedSet env (j + 1) ≠ listedSet env j) →
      wfpAux env prev stable poll fuel = (listedSet env (poll + fuel - 1), fuel) := by
  intro fuel
  induction fuel with
  | zero =>
    intro stable poll prev h1
    omega
  | succ fuel ih =>
    intro stable poll prev h1 hprev hch
    rw [wfpAux]
    rw [if_neg (fun h => hprev h.symm)]
    rcases Nat.eq_zero_or_pos fuel with rfl | hpos
    · rw [wfpAux]
      simp
    · have := ih 0 (poll + 1) (listedSet env poll) hpos
        (fun h => hch poll h.symm) hch
      rw [this]
      have harith : poll + 1 + fuel - 1 = poll + (fuel + 1) - 1 := by omega
      rw [harith]

theorem wfpAux_converges (env : Env) (A : Finset String) :
    ∀ (m : Nat), ∀ (fuel stable poll : Nat) (prev : Finset String),
      m + 13 ≤ fuel →
      prev ≠ listedSet env poll →
      (∀ i, poll ≤ i → i < poll + m → listedSet env i ≠ listedSet env (i + 1)) →
      (∀ i, poll + m ≤ i → listedSet env i = A) →
      wfpAux env prev stable poll fuel = (A, m + 13) := by
  intro m
  induction m with
  | zero =>
    intro fuel stable poll prev hfuel hprev hch hall
    rcases fuel with _ | fuel
    · omega
    rw [wfpAux]
    rw [if_neg (fun h => hprev h.symm)]
    have hA : listedSet env poll = A := hall poll (by omega)
    rw [hA]
    have := wfpAux_stable env A fuel 0 (poll + 1) (by omega) (by omega)
      (fun j hj => hall j (by omega))
    rw [this]
  | succ m ih =>
    intro fuel stable poll prev hfuel hprev hch hall
    rcases fuel with _ | fuel
    · omega
    rw [wfpAux]
    rw [if_neg (fun h => hprev h.symm)]
    have hnext : listedSet env poll ≠ listedSet env (poll + 1) :=
      hch poll (by omega) (by omega)
    have := ih fuel 0 (poll + 1) (listedSet env poll) (by omega) hnext
      (fun i hi hi2 => hch i (by omega) (by omega))
      (fun i hi => hall i (by omega))
    rw [this]

/-- C2: the stability watcher, polling at a 5-second interval with a
quiescence threshold of 12 consecutive unchanged listings and a 300-second
deadline (60 polls), (a) for a listing sequence that keeps changing through
poll `k` and is constant from poll `k` on, returns exactly the final set
and consumes exactly `k + 13` polls — the first observation of the final
set plus the 12 consecutive equal polls the threshold demands, and not
fewer — and (b) when the listing never repeats, it exhausts all 60 polls
and returns the last remembered (59th) set instead of raising. -/
theorem c2_stability_watcher (env : Env) (A : Finset String) (k : Nat) :
    wait_for_file_processing env 300 = (wfpAux env ∅ 0 0 60).1 ∧
    ((∀ i, k ≤ i → listedSet env i = A) →
     (∀ i, i < k → listedSet env i ≠ listedSet env (i + 1)) →
     listedSet env 0 ≠ ∅ → k ≤ 47 →
     wfpAux env ∅ 0 0 60 = (A, k + 13)) ∧
    ((∀ i, listedSet env (i + 1) ≠ listedSet env i) →
     listedSet env 0 ≠ ∅ →
     wfpAux env ∅ 0 0 60 = (listedSet env 59, 60)) := by
  refine ⟨rfl, ?_, ?_⟩
  · intro hk hch h0 hkb
    exact wfpAux_converges env A k 60 0 0 ∅ (by omega) (fun h => h0 h.symm)
      (fun i _ hi => hch i (by omega)) (fun i hi => hk i (by omega))
  · intro hch h0
    have := wfpAux_all_change env 60 0 0 ∅ (by omega) (fun h => h0 h.symm) hch
    simpa using this

/-! ### Stateful call model

Statement executions, object copies and deletes are the externally visible
actions of a run; a `RunState` counts issued statements (the n-th
`execute_statement` call gets handle n) and accumulates the action trace. -/

inductive Sql
  | existsQuery (tableName : String)
  | createTable (tableName : String) (cols : List (String × String))
  | copyCmd (tableName bucket key : String)
  | countQuery (tableName : String)
deriving DecidableEq, Repr

inductive Action
  | execute (sid : Nat) (sql : Sql)
  | s3copy (bucket src dst : String)
  | s3delete (bucket key : String)
  | s3get (bucket key : String)
deriving DecidableEq, Repr

/-- Copies and deletes are the actions that change what is stored under a
key; everything before relocation only reads or runs statements. -/
def Action.isS3Write : Action → Bool
  | .s3copy _ _ _ => true
  | .s3delete _ _ => true
  | _ => false

structure RunState where
  nExec : Nat
  trace : List Action
deriving DecidableEq, Repr

def initState : RunState := ⟨0, []⟩

/-- Call `redshift_data.execute_statement(...)`: the call is recorded and either
yields the next statement handle or raises. -/
def execute_statement (env : Env) (sql : Sql) (s : RunState) :
    Except String Nat × RunState :=
  let s' : RunState := ⟨s.nExec + 1, s.trace ++ [.execute s.nExec sql]⟩
  match env.execOutcome s.nExec with
  | .ok _ => (.ok s.nExec, s')
  | .error e => (.error e, s')

/-- Function `check_table_exists`: run the information-schema count query and return
whether the count is positive; the surrounding `try/except` converts *any*
error (including a failed or timed-out wait, or a malformed result row)
into `False`. -/
def check_table_exists (env : Env) (table_name : String) (s : RunState) :
    Bool × RunState :=
  match execute_statement env (.existsQuery table_name) s with
  | (.error _, s') => (false, s')
  | (.ok sid, s') =>
    match wait_for_query_completion env sid true with
    | .error _ => (false, s')
    | .ok none => (false, s')
    | .ok (some []) => (false, s')
    | .ok (some ([] :: _)) => (false, s')
    | .ok (some ((count :: _) :: _)) => (decide (count > 0), s')

/-- Python dict-comprehension insertion: a later duplicate key overwrites
the earlier value in place, otherwise the pair is appended. -/
def dictInsert (m : List (String × String)) (kv : String × String) :
    List (String × String) :=
  if m.any (fun p => p.1 == kv.1) then
    m.map (fun p => if p.1 == kv.1 then (p.1, kv.2) else p)
  else m ++ [kv]

/-- Python `\x7bclean_column_name(col): detect_data_type(df[col]) for col in df.columns\x7d`. -/
def colDefs (df : DataFrame) : List (String × String) :=
  df.cols.foldl
    (fun m cv => dictInsert m (clean_column_name cv.1, detect_data_type cv.2)) []

/-- Function `create_table`: issue `CREATE TABLE IF NOT EXISTS` with the inferred
column definitions and wait (no result expected); its `except` clause only
logs and re-raises, so errors propagate. -/
def create_table (env : Env) (table_name : String) (df : DataFrame)
    (s : RunState) : Except String Unit × RunState :=
  match execute_statement env (.createTable table_name (colDefs df)) s with
  | (.error e, s') => (.error e, s')
  | (.ok sid, s') =>
    match wait_for_query_completion env sid false with
    | .error e => (.error e, s')
    | .ok _ => (.ok (), s')

/-- Function `load_data_to_redshift`: issue the COPY, wait for it, then verify with a
`SELECT COUNT(*)`; a zero count or an unreadable verification result raises. -/
def load_data_to_redshift (env : Env) (table_name bucket key : String)
    (s : RunState) : Except String Unit × RunState :=
  match execute_statement env (.copyCmd table_name bucket key) s with
  | (.error e, s1) => (.error e, s1)
  | (.ok csid, s1) =>
    match wait_for_query_completion env csid false with
    | .error e => (.error e, s1)
    | .ok _ =>
      match execute_statement env (.countQuery table_name) s1 with
      | (.error e, s2) => (.error e, s2)
      | (.ok vsid, s2) =>
        match wait_for_query_completion env vsid true with
        | .error e => (.error e, s2)
        | .ok (some ((row_count :: _) :: _)) =>
          if row_count = 0 then
            (.error ("No data was loaded into " ++ table_name), s2)
          else (.ok (), s2)
        | .ok (some ([] :: _)) => (.error "IndexError", s2)
        | .ok (some []) => (.error "Could not verify data load", s2)
        | .ok none => (.error "Could not verify data load", s2)

/-- One step of `str.replace`: replace every (non-overlapping, leftmost)
occurrence of `pat`; the fuel is the input length, enough because every
step consumes at least one character when `pat` is nonempty. -/
def replaceAux (pat rep : List Char) : Nat → List Char → List Char
  | 0, l => l
  | _ + 1, [] => []
  | fuel + 1, c :: rest =>
    if List.isPrefixOf pat (c :: rest) then
      rep ++ replaceAux pat rep fuel ((c :: rest).drop pat.length)
    else c :: replaceAux pat rep fuel rest

/-- Python `str.replace(pat, rep)` (all occurrences). -/
def strReplace (s pat rep : String) : String :=
  String.mk (replaceAux pat.data rep.data (s.data.length + 1) s.data)

/-- Function `move_to_completed`: copy the object under the `completed/` prefix, then
delete the original; either S3 call may raise, and the delete is only
reached after a successful copy. -/
def move_to_completed (env : Env) (bucket source_key : String) (s : RunState) :
    Except String Unit × RunState :=
  let completed_key := strReplace source_key "processed/" "completed/"
  let s1 : RunState := ⟨s.nExec, s.trace ++ [.s3copy bucket source_key completed_key]⟩
  match env.copyOutcome source_key with
  | .error e => (.error e, s1)
  | .ok _ =>
    let s2 : RunState := ⟨s1.nExec, s1.trace ++ [.s3delete bucket source_key]⟩
    match env.deleteOutcome source_key with
    | .error e => (.error e, s2)
    | .ok _ => (.ok (), s2)

/-- Python `os.path.basename`: the part after the last slash. -/
def basename (key : String) : String :=
  String.mk ((key.data.reverse.takeWhile (fun c => c != '/')).reverse)

/-- The root part of `os.path.splitext`: split at the last dot, unless every
character before that dot is itself a dot (e.g. a bare `.bashrc`). -/
def splitextRoot (name : String) : String :=
  let l := name.data
  let extLen := (l.reverse.takeWhile (fun c => c != '.')).length
  if extLen = l.length then name
  else
    let stem := l.take (l.length - extLen - 1)
    if stem.any (fun c => c != '.') then String.mk stem else name

/-- The table name derived from a key:
`clean_column_name(os.path.splitext(os.path.basename(key))[0])`. -/
def tableNameOf (key : String) : String :=
  clean_column_name (splitextRoot (basename key))

/-- The tail of the per-file happy path once the table is ensured:
`load_data_to_redshift(...)` followed by `move_to_completed(...)`. -/
def processTail (env : Env) (bucket key : String) (s2 : RunState) :
    Except String Unit × RunState :=
  match load_data_to_redshift env (tableNameOf key) bucket key s2 with
  | (.error e, s3) => (.error e, s3)
  | (.ok _, s3) => move_to_completed env bucket key s3

/-- The body of the per-file `try` block in `lambda_handler`: fetch, parse,
ensure the table, bulk-load with verification, then relocate. -/
def processFile (env : Env) (bucket key : String) (s : RunState) :
    Except String Unit × RunState :=
  let s0 : RunState := ⟨s.nExec, s.trace ++ [.s3get bucket key]⟩
  match env.getOutcome key with
  | .error e => (.error e, s0)
  | .ok csv_content =>
    match env.readCsv csv_content with
    | .error e => (.error e, s0)
    | .ok df =>
      let table_name := tableNameOf key
      match check_table_exists env table_name s0 with
      | (tableExists, s1) =>
        match (if tableExists then (Except.ok (), s1)
               else create_table env table_name df s1) with
        | (.error e, s2) => (.error e, s2)
        | (.ok _, s2) => processTail env bucket key s2

/-- The `for key in files_to_process` loop: each file is processed inside
its own `try/except`, appending to `processed_files` on success and to
`failed_files` (with the error text) on failure, then continuing. -/
def processLoop (env : Env) (bucket : String) :
    List String → RunState → (List String × List (String × String)) × RunState
  | [], s => (([], []), s)
  | key :: rest, s =>
    match processFile env bucket key s with
    | (.ok _, s') =>
      let r := processLoop env bucket rest s'
      ((key :: r.1.1, r.1.2), r.2)
    | (.error e, s') =>
      let r := processLoop env bucket rest s'
      ((r.1.1, (key, e) :: r.1.2), r.2)

inductive LambdaResponse
  | success (message : String) (processed : List String)
      (failed : List (String × String))
  | failure (body : String)
deriving DecidableEq, Repr

/-- The discovered batch as the handler iterates it: Python's `list(set)` in
some unspecified order is modelled as the sorted listing of the stable set. -/
def sortedBatch (env : Env) : List String :=
  (wait_for_file_processing env 300).sort (· ≤ ·)

def runLists (env : Env) (bucket : String) :
    (List String × List (String × String)) × RunState :=
  processLoop env bucket (sortedBatch env) initState

/-- Function `lambda_handler`: a malformed trigger event fails the whole run with a
500 before any file is attempted; otherwise the batch is discovered, each
file processed under its per-file `try`, and a 200 aggregate returned. -/
def lambda_handler (env : Env) (event : Option (String × String)) :
    LambdaResponse × RunState :=
  match event with
  | none => (.failure "Error processing files: KeyError", initState)
  | some (bucket, _) =>
    let r := runLists env bucket
    (.success ("Processed " ++ toString r.1.1.length ++ " files, " ++
        toString r.1.2.length ++ " failures") r.1.1 r.1.2, r.2)

/-! ### State and trace lemmas for the helpers -/

/-! ### State and trace lemmas for the helpers -/

theorem execute_statement_state (env : Env) (sql : Sql) (s : RunState) :
    (execute_statement env sql s).2 =
      ⟨s.nExec + 1, s.trace ++ [.execute s.nExec sql]⟩ := by
  unfold execute_statement
  rcases env.execOutcome s.nExec with e | u <;> rfl

theorem execute_statement_ok {env : Env} {sql : Sql} {s : RunState}
    {sid : Nat} {s' : RunState}
    (h : execute_statement env sql s = (.ok sid, s')) :
    sid = s.nExec ∧ s' = ⟨s.nExec + 1, s.trace ++ [.execute s.nExec sql]⟩ := by
  unfold execute_statement at h
  rcases ho : env.execOutcome s.nExec with e | u <;> rw [ho] at h <;> simp at h
  exact ⟨h.1.symm, h.2.symm⟩

theorem check_table_exists_state (env : Env) (tn : String) (s : RunState) :
    (check_table_exists env tn s).2 =
      ⟨s.nExec + 1, s.trace ++ [.execute s.nExec (.existsQuery tn)]⟩ := by
  have he := execute_statement_state env (.existsQuery tn) s
  unfold check_table_exists
  split
  · rename_i s' heq
    rw [heq] at he
    exact he
  · rename_i sid s' heq
    rw [heq] at he
    split <;> exact he

theorem create_table_state (env : Env) (tn : String) (df : DataFrame)
    (s : RunState) :
    (create_table env tn df s).2 =
      ⟨s.nExec + 1, s.trace ++ [.execute s.nExec (.createTable tn (colDefs df))]⟩ := by
  have he := execute_statement_state env (.createTable tn (colDefs df)) s
  unfold create_table
  split
  · rename_i s' heq
    rw [heq] at he
    exact he
  · rename_i sid s' heq
    rw [heq] at he
    split <;> exact he

/-- Outcome analysis of the bulk load: on success the COPY and the COUNT
verification statements were issued in order and the verification wait
returned a nonzero first count; on failure the trace gained only statement
executions. -/
theorem load_data_cases (env : Env) (tn bucket key : String) (s : RunState) :
    ((load_data_to_redshift env tn bucket key s).1 = .ok () ∧
      (load_data_to_redshift env tn bucket key s).2 =
        ⟨s.nExec + 2, s.trace ++ [.execute s.nExec (.copyCmd tn bucket key),
          .execute (s.nExec + 1) (.countQuery tn)]⟩ ∧
      ∃ v vr rows, wait_for_query_completion env (s.nExec + 1) true =
          .ok (some ((v :: vr) :: rows)) ∧ v ≠ 0) ∨
    ((∃ e, (load_data_to_redshift env tn bucket key s).1 = .error e) ∧
      ∃ t, (load_data_to_redshift env tn bucket key s).2.trace = s.trace ++ t ∧
        ∀ a ∈ t, a.isS3Write = false) := by
  have hone : ∀ a ∈ [Action.execute s.nExec (.copyCmd tn bucket key)],
      a.isS3Write = false := by
    intro a ha
    simp at ha
    subst ha
    rfl
  have htwo : ∀ a ∈ [Action.execute s.nExec (.copyCmd tn bucket key),
      Action.execute (s.nExec + 1) (.countQuery tn)], a.isS3Write = false := by
    intro a ha
    simp at ha
    rcases ha with rfl | rfl <;> rfl
  unfold load_data_to_redshift
  split
  · rename_i e s1 heq
    have h1 : s1 = ⟨s.nExec + 1, s.trace ++ [.execute s.nExec (.copyCmd tn bucket key)]⟩ := by
      have := execute_statement_state env (.copyCmd tn bucket key) s
      rw [heq] at this
      exact this
    exact Or.inr ⟨⟨e, rfl⟩, _, by rw [h1], hone⟩
  · rename_i csid s1 heq
    obtain ⟨hcsid, h1⟩ := execute_statement_ok heq
    split
    · rename_i e hw
      exact Or.inr ⟨⟨e, rfl⟩, _, by rw [h1], hone⟩
    · rename_i o hw
      split
      · rename_i e s2 heq2
        have h2 : s2 = ⟨s1.nExec + 1, s1.trace ++ [.execute s1.nExec (.countQuery tn)]⟩ := by
          have := execute_statement_state env (.countQuery tn) s1
          rw [heq2] at this
          exact this
        refine Or.inr ⟨⟨e, rfl⟩, _, ?_, htwo⟩
        rw [h2, h1]
        simp
      · rename_i vsid s2 heq2
        obtain ⟨hvsid, h2⟩ := execute_statement_ok heq2
        have hs2 : s2 = ⟨s.nExec + 2,
            s.trace ++ [.execute s.nExec (.copyCmd tn bucket key),
              .execute (s.nExec + 1) (.countQuery tn)]⟩ := by
          rw [h2, h1]
          simp
        have hvsid' : vsid = s.nExec + 1 := by
          rw [hvsid, h1]
        split
        · rename_i e hw2
          exact Or.inr ⟨⟨e, rfl⟩, _, by rw [hs2], htwo⟩
        · rename_i row_count tl tl2 hw2
          by_cases hv : row_count = 0
          · rw [if_pos hv]
            exact Or.inr ⟨⟨_, rfl⟩, _, by rw [hs2], htwo⟩
          · rw [if_neg hv]
            refine Or.inl ⟨rfl, hs2, row_count, tl, tl2, ?_, hv⟩
            rw [← hvsid', hw2]
        · rename_i tl hw2
          exact Or.inr ⟨⟨_, rfl⟩, _, by rw [hs2], htwo⟩
        · rename_i hw2
          exact Or.inr ⟨⟨_, rfl⟩, _, by rw [hs2], htwo⟩
        · rename_i hw2
          exact Or.inr ⟨⟨_, rfl⟩, _, by rw [hs2], htwo⟩

/-- Outcome analysis of the relocation: a delete is attempted only after a
successful copy, and the copy (or copy-then-delete) pair closes the trace. -/
theorem move_to_completed_cases (env : Env) (bucket key : String) (s : RunState) :
    (env.copyOutcome key = .ok () ∧
      (move_to_completed env bucket key s).2.trace = s.trace ++
        [.s3copy bucket key (strReplace key "processed/" "completed/"),
         .s3delete bucket key]) ∨
    ((∃ e, env.copyOutcome key = .error e ∧
        (move_to_completed env bucket key s).1 = .error e) ∧
      (move_to_completed env bucket key s).2.trace = s.trace ++
        [.s3copy bucket key (strReplace key "processed/" "completed/")]) := by
  unfold move_to_completed
  rcases hc : env.copyOutcome key with e | u
  · exact Or.inr ⟨⟨e, rfl, rfl⟩, by simp⟩
  · rcases hd : env.deleteOutcome key with e | u
    · exact Or.inl ⟨rfl, by simp⟩
    · exact Or.inl ⟨rfl, by simp⟩

/-- A trace fragment containing no copy and no delete. -/
def NoS3Write (t : List Action) : Prop :=
  ∀ a ∈ t, a.isS3Write = false

/-- Evidence in a trace that the load of table `tn` was verified: a count
query was issued whose awaited result carried a nonzero first value. -/
def VerifiedLoad (env : Env) (tn : String) (tr : List Action) : Prop :=
  ∃ sid v vr rows, Action.execute sid (Sql.countQuery tn) ∈ tr ∧
    wait_for_query_completion env sid true = .ok (some ((v :: vr) :: rows)) ∧
    v ≠ 0

theorem NoS3Write.append {t u : List Action} (h1 : NoS3Write t)
    (h2 : NoS3Write u) : NoS3Write (t ++ u) := by
  intro a ha
  rcases List.mem_append.mp ha with h | h
  · exact h1 a h
  · exact h2 a h

theorem processTail_shape (env : Env) (bucket key : String) (s2 : RunState) :
    (∃ t, (processTail env bucket key s2).2.trace = s2.trace ++ t ∧
      NoS3Write t ∧ ∃ e, (processTail env bucket key s2).1 = .error e) ∨
    (∃ t, (processTail env bucket key s2).2.trace = s2.trace ++ t ++
        [.s3copy bucket key (strReplace key "processed/" "completed/")] ∧
      NoS3Write t ∧ (∃ e, env.copyOutcome key = .error e) ∧
      VerifiedLoad env (tableNameOf key) (s2.trace ++ t)) ∨
    (∃ t, (processTail env bucket key s2).2.trace = s2.trace ++ t ++
        [.s3copy bucket key (strReplace key "processed/" "completed/"),
         .s3delete bucket key] ∧
      NoS3Write t ∧ env.copyOutcome key = .ok () ∧
      VerifiedLoad env (tableNameOf key) (s2.trace ++ t)) := by
  unfold processTail
  split
  · rename_i e s3 heq
    rcases load_data_cases env (tableNameOf key) bucket key s2 with
      ⟨hok, -, -⟩ | ⟨-, t', ht, hnw⟩
    · rw [heq] at hok
      simp at hok
    · rw [heq] at ht
      exact Or.inl ⟨t', ht, hnw, e, rfl⟩
  · rename_i u s3 heq
    rcases load_data_cases env (tableNameOf key) bucket key s2 with
      ⟨-, hst, v, vr, rows, hw, hv⟩ | ⟨⟨e', he⟩, -, -⟩
    · rw [heq] at hst
      have hs3 : s3 = ⟨s2.nExec + 2, s2.trace ++
          [.execute s2.nExec (.copyCmd (tableNameOf key) bucket key),
           .execute (s2.nExec + 1) (.countQuery (tableNameOf key))]⟩ := hst
      have hs3tr : s3.trace = s2.trace ++
          [.execute s2.nExec (.copyCmd (tableNameOf key) bucket key),
           .execute (s2.nExec + 1) (.countQuery (tableNameOf key))] := by
        rw [hs3]
      have hnw2 : NoS3Write
          [Action.execute s2.nExec (.copyCmd (tableNameOf key) bucket key),
           Action.execute (s2.nExec + 1) (.countQuery (tableNameOf key))] := by
        intro a ha
        simp at ha
        rcases ha with rfl | rfl <;> rfl
      have hver : VerifiedLoad env (tableNameOf key) (s2.trace ++
          [.execute s2.nExec (.copyCmd (tableNameOf key) bucket key),
           .execute (s2.nExec + 1) (.countQuery (tableNameOf key))]) :=
        ⟨s2.nExec + 1, v, vr, rows, by simp, hw, hv⟩
      rcases move_to_completed_cases env bucket key s3 with ⟨hc, htr⟩ |
        ⟨⟨e, hce, hres⟩, htr⟩
      · refine Or.inr (Or.inr ⟨_, ?_, hnw2, hc, hver⟩)
        rw [htr, hs3tr]
      · refine Or.inr (Or.inl ⟨_, ?_, hnw2, ⟨e, hce⟩, hver⟩)
        rw [htr, hs3tr]
    · rw [heq] at he
      simp at he

/-- Lifting `processTail_shape` over a statement-only prefix of the trace. -/
theorem processTail_shape_from (env : Env) (bucket key : String)
    (s s2 : RunState) (tpre : List Action)
    (hpre : s2.trace = s.trace ++ tpre) (hnw : NoS3Write tpre) :
    (∃ t, (processTail env bucket key s2).2.trace = s.trace ++ t ∧
      NoS3Write t ∧ ∃ e, (processTail env bucket key s2).1 = .error e) ∨
    (∃ t, (processTail env bucket key s2).2.trace = s.trace ++ t ++
        [.s3copy bucket key (strReplace key "processed/" "completed/")] ∧
      NoS3Write t ∧ (∃ e, env.copyOutcome key = .error e) ∧
      VerifiedLoad env (tableNameOf key) (s.trace ++ t)) ∨
    (∃ t, (processTail env bucket key s2).2.trace = s.trace ++ t ++
        [.s3copy bucket key (strReplace key "processed/" "completed/"),
         .s3delete bucket key] ∧
      NoS3Write t ∧ env.copyOutcome key = .ok () ∧
      VerifiedLoad env (tableNameOf key) (s.trace ++ t)) := by
  rcases processTail_shape env bucket key s2 with ⟨t, ht, hn, he⟩ |
    ⟨t, ht, hn, hc, hv⟩ | ⟨t, ht, hn, hc, hv⟩
  · refine Or.inl ⟨tpre ++ t, ?_, hnw.append hn, he⟩
    rw [ht, hpre, List.append_assoc]
  · refine Or.inr (Or.inl ⟨tpre ++ t, ?_, hnw.append hn, hc, ?_⟩)
    · rw [ht, hpre]
      simp
    · rw [← List.append_assoc, ← hpre]
      exact hv
  · refine Or.inr (Or.inr ⟨tpre ++ t, ?_, hnw.append hn, hc, ?_⟩)
    · rw [ht, hpre]
      simp
    · rw [← List.append_assoc, ← hpre]
      exact hv

/-- Master shape of one file's processing: either it fails having performed
no copy or delete, or the verified load is witnessed in the trace and the
run ends with the copy (and, if the copy succeeded, the delete) of the file. -/
theorem processFile_shape (env : Env) (bucket key : String) (s : RunState) :
    (∃ t, (processFile env bucket key s).2.trace = s.trace ++ t ∧
      NoS3Write t ∧ ∃ e, (processFile env bucket key s).1 = .error e) ∨
    (∃ t, (processFile env bucket key s).2.trace = s.trace ++ t ++
        [.s3copy bucket key (strReplace key "processed/" "completed/")] ∧
      NoS3Write t ∧ (∃ e, env.copyOutcome key = .error e) ∧
      VerifiedLoad env (tableNameOf key) (s.trace ++ t)) ∨
    (∃ t, (processFile env bucket key s).2.trace = s.trace ++ t ++
        [.s3copy bucket key (strReplace key "processed/" "completed/"),
         .s3delete bucket key] ∧
      NoS3Write t ∧ env.copyOutcome key = .ok () ∧
      VerifiedLoad env (tableNameOf key) (s.trace ++ t)) := by
  have hget : NoS3Write [Action.s3get bucket key] := by
    intro a ha
    simp at ha
    subst ha
    rfl
  simp only [processFile]
  split
  · rename_i e heq
    exact Or.inl ⟨[.s3get bucket key], rfl, hget, e, rfl⟩
  · rename_i content heq
    split
    · rename_i e heq2
      exact Or.inl ⟨[.s3get bucket key], rfl, hget, e, rfl⟩
    · rename_i df heq2
      obtain ⟨tableExists, s1, hpair⟩ : ∃ b st, check_table_exists env
          (tableNameOf key) ⟨s.nExec, s.trace ++ [Action.s3get bucket key]⟩ =
            (b, st) := ⟨_, _, rfl⟩
      have hs1 : s1 = ⟨s.nExec + 1, s.trace ++ [Action.s3get bucket key] ++
          [Action.execute s.nExec (Sql.existsQuery (tableNameOf key))]⟩ := by
        have h := check_table_exists_state env (tableNameOf key)
          ⟨s.nExec, s.trace ++ [Action.s3get bucket key]⟩
        rw [hpair] at h
        exact h
      rw [hpair]
      dsimp only
      cases tableExists
      · rw [if_neg (by simp)]
        split
        · rename_i e s2 heq4
          have hs2 : s2 = ⟨s1.nExec + 1, s1.trace ++
              [.execute s1.nExec (.createTable (tableNameOf key) (colDefs df))]⟩ := by
            have h := create_table_state env (tableNameOf key) df s1
            rw [heq4] at h
            exact h
          refine Or.inl ⟨[Action.s3get bucket key,
            Action.execute s.nExec (Sql.existsQuery (tableNameOf key)),
            Action.execute (s.nExec + 1)
              (Sql.createTable (tableNameOf key) (colDefs df))], ?_, ?_, e, rfl⟩
          · show s2.trace = _
            rw [hs2, hs1]
            simp
          · intro a ha
            simp at ha
            rcases ha with rfl | rfl | rfl <;> rfl
        · rename_i u s2 heq4
          have hs2 : s2 = ⟨s1.nExec + 1, s1.trace ++
              [.execute s1.nExec (.createTable (tableNameOf key) (colDefs df))]⟩ := by
            have h := create_table_state env (tableNameOf key) df s1
            rw [heq4] at h
            exact h
          refine processTail_shape_from env bucket key s s2
            [Action.s3get bucket key,
             Action.execute s.nExec (Sql.existsQuery (tableNameOf key)),
             Action.execute (s.nExec + 1)
               (Sql.createTable (tableNameOf key) (colDefs df))] ?_ ?_
          · rw [hs2, hs1]
            simp
          · intro a ha
            simp at ha
            rcases ha with rfl | rfl | rfl <;> rfl
      · rw [if_pos rfl]
        dsimp only
        refine processTail_shape_from env bucket key s s1
          [Action.s3get bucket key,
           Action.execute s.nExec (Sql.existsQuery (tableNameOf key))] ?_ ?_
        · rw [hs1]
          simp
        · intro a ha
          simp at ha
          rcases ha with rfl | rfl <;> rfl

theorem processTail_trace_extends (env : Env) (bucket key : String)
    (s2 : RunState) :
    ∃ u, (processTail env bucket key s2).2.trace = s2.trace ++ u := by
  rcases processTail_shape env bucket key s2 with ⟨t, ht, -⟩ | ⟨t, ht, -⟩ |
    ⟨t, ht, -⟩
  · exact ⟨t, ht⟩
  · exact ⟨t ++ [.s3copy bucket key (strReplace key "processed/" "completed/")],
      by rw [ht, List.append_assoc]⟩
  · exact ⟨t ++ [.s3copy bucket key (strReplace key "processed/" "completed/"),
      .s3delete bucket key], by rw [ht, List.append_assoc]⟩

theorem VerifiedLoad.append_right {env : Env} {tn : String}
    {tr u : List Action} (h : VerifiedLoad env tn tr) :
    VerifiedLoad env tn (tr ++ u) := by
  obtain ⟨sid, v, vr, rows, hm, hw, hv⟩ := h
  exact ⟨sid, v, vr, rows, List.mem_append.mpr (Or.inl hm), hw, hv⟩

/-- With the `try/except` of `check_table_exists`, a failing or timed-out
metadata query yields `False` rather than an error. -/
theorem check_table_exists_false_of_error (env : Env) (tn : String)
    (s : RunState)
    (h : (∃ e, env.execOutcome s.nExec = .error e) ∨
      (∃ e, wait_for_query_completion env s.nExec true = .error e)) :
    (check_table_exists env tn s).1 = false := by
  unfold check_table_exists
  split
  · rfl
  · rename_i sid s' heq
    obtain ⟨hsid, -⟩ := execute_statement_ok heq
    have hok : env.execOutcome s.nExec = .ok () := by
      unfold execute_statement at heq
      rcases ho : env.execOutcome s.nExec with e | u
      · rw [ho] at heq
        simp at heq
      · cases u
        rfl
    subst hsid
    rcases h with ⟨e, he⟩ | ⟨e, he⟩
    · rw [hok] at he
      cases he
    · split
      all_goals first
        | rfl
        | (rename_i hw
           rw [he] at hw
           cases hw)

/-- Each file contributes exactly once, to exactly one of the two lists. -/
theorem processLoop_count (env : Env) (bucket k : String) :
    ∀ (ks : List String) (s : RunState),
      (processLoop env bucket ks s).1.1.count k +
        ((processLoop env bucket ks s).1.2.map Prod.fst).count k =
          ks.count k := by
  intro ks
  induction ks with
  | nil =>
    intro s
    simp [processLoop]
  | cons key rest ih =>
    intro s
    rw [processLoop]
    split
    · rename_i u s' heq
      have ihr := ih s'
      dsimp only
      simp only [List.count_cons]
      omega
    · rename_i e s' heq
      have ihr := ih s'
      dsimp only
      simp only [List.map_cons, List.count_cons]
      omega

/-- A file whose processing raises lands in the failure list and, when it
occurs only once in the batch, not in the success list. -/
theorem processLoop_head_error (env : Env) (bucket key : String)
    (rest : List String) (s : RunState) (e : String) (s' : RunState)
    (hpf : processFile env bucket key s = (.error e, s'))
    (hnr : key ∉ rest) :
    key ∈ ((processLoop env bucket (key :: rest) s).1.2.map Prod.fst) ∧
    key ∉ (processLoop env bucket (key :: rest) s).1.1 := by
  rw [processLoop, hpf]
  dsimp only
  have hc := processLoop_count env bucket key rest s'
  have hz : rest.count key = 0 := List.count_eq_zero.mpr hnr
  constructor
  · simp
  · intro hmem
    have := List.count_pos_iff.mpr hmem
    omega

/-! ### Concrete environments used to instantiate the theorems -/

/-- A run in which everything succeeds: one stable file, every statement
finishes, every count query returns 1. -/
def witEnv : Env where
  execOutcome := fun _ => .ok ()
  status := fun _ _ => .finished
  statusError := fun _ _ => ""
  statementResult := fun _ => .ok [[1]]
  listObjects := fun _ => .ok ["processed/a.csv"]
  getOutcome := fun _ => .ok "id"
  readCsv := fun _ => .ok ⟨[("id", ⟨.int64, [some "1"]⟩)]⟩
  copyOutcome := fun _ => .ok ()
  deleteOutcome := fun _ => .ok ()

/-- A run whose third statement (the post-load count verification) reports
zero rows while everything else succeeds. -/
def witEnvZero : Env where
  execOutcome := fun _ => .ok ()
  status := fun _ _ => .finished
  statusError := fun _ _ => ""
  statementResult := fun sid => if sid = 2 then .ok [[0]] else .ok [[1]]
  listObjects := fun _ => .ok ["processed/a.csv"]
  getOutcome := fun _ => .ok "id"
  readCsv := fun _ => .ok ⟨[("id", ⟨.int64, [some "1"]⟩)]⟩
  copyOutcome := fun _ => .ok ()
  deleteOutcome := fun _ => .ok ()

/-- A run whose very first statement (the existence check) raises. -/
def witEnvBoom : Env where
  execOutcome := fun sid => if sid = 0 then .error "boom" else .ok ()
  status := fun _ _ => .finished
  statusError := fun _ _ => ""
  statementResult := fun _ => .ok [[1]]
  listObjects := fun _ => .ok ["processed/a.csv"]
  getOutcome := fun _ => .ok "id"
  readCsv := fun _ => .ok ⟨[("id", ⟨.int64, [some "1"]⟩)]⟩
  copyOutcome := fun _ => .ok ()
  deleteOutcome := fun _ => .ok ()

/-! ### The remaining claims -/

/-- C1: for a well-formed trigger the handler returns the 200 aggregate
built from the per-file loop; every per-file error is caught and recorded
(the run never aborts), each discovered file is counted exactly once across
the success and failure lists — so each file lies in exactly one of them —
and only a malformed trigger yields the whole-run 500 with neither list. -/
theorem c1_per_file_isolation (env : Env) (bucket trigger : String) :
    lambda_handler env (some (bucket, trigger)) =
      (LambdaResponse.success
        ("Processed " ++ toString (runLists env bucket).1.1.length ++
          " files, " ++ toString (runLists env bucket).1.2.length ++
          " failures")
        (runLists env bucket).1.1 (runLists env bucket).1.2,
        (runLists env bucket).2) ∧
    (∀ k, (runLists env bucket).1.1.count k +
        ((runLists env bucket).1.2.map Prod.fst).count k =
          (sortedBatch env).count k) ∧
    (∀ k, k ∈ sortedBatch env →
      (k ∈ (runLists env bucket).1.1 ∧
        k ∉ (runLists env bucket).1.2.map Prod.fst) ∨
      (k ∉ (runLists env bucket).1.1 ∧
        k ∈ (runLists env bucket).1.2.map Prod.fst)) ∧
    lambda_handler env none =
      (.failure "Error processing files: KeyError", initState) := by
  have hcnt : ∀ k, (runLists env bucket).1.1.count k +
      ((runLists env bucket).1.2.map Prod.fst).count k =
        (sortedBatch env).count k :=
    fun k => processLoop_count env bucket k (sortedBatch env) initState
  refine ⟨rfl, hcnt, ?_, rfl⟩
  intro k hk
  have hnd : (sortedBatch env).Nodup := Finset.sort_nodup _ _
  have h1 : (sortedBatch env).count k = 1 :=
    List.count_eq_one_of_mem hnd hk
  have hc := hcnt k
  rw [h1] at hc
  rcases Nat.eq_zero_or_pos ((runLists env bucket).1.1.count k) with hz | hp
  · right
    constructor
    · intro hmem
      have := List.count_pos_iff.mpr hmem
      omega
    · refine List.count_pos_iff.mp ?_
      omega
  · left
    constructor
    · exact List.count_pos_iff.mp hp
    · intro hmem
      have := List.count_pos_iff.mpr hmem
      omega

theorem c1_per_file_isolation_witness :
    ("processed/a.csv" ∈ (runLists witEnv "b").1.1 ∧
      "processed/a.csv" ∉ (runLists witEnv "b").1.2.map Prod.fst) ∨
    ("processed/a.csv" ∉ (runLists witEnv "b").1.1 ∧
      "processed/a.csv" ∈ (runLists witEnv "b").1.2.map Prod.fst) := by
  have hA : wait_for_file_processing witEnv 300 = listedSet witEnv 0 := by
    have h := wfpAux_converges witEnv (listedSet witEnv 0) 0 60 0 0 ∅
      (by omega) (by decide) (fun i h1 h2 => absurd h2 (by omega))
      (fun i _ => rfl)
    show (wfpAux witEnv ∅ 0 0 60).1 = _
    rw [h]
  refine (c1_per_file_isolation witEnv "b" "t").2.2.1 "processed/a.csv" ?_
  show "processed/a.csv" ∈ (wait_for_file_processing witEnv 300).sort (· ≤ ·)
  rw [hA, Finset.mem_sort]
  decide

/-- C5: relocation discipline of one file's run.  A delete of the file's
pending key happens only as the final action after a successful copy to the
completed key, and any copy (hence also the delete) happens only after the
load was verified — a count query for the file's table was issued earlier
whose awaited result carried a nonzero count.  Contrapositively, a file
whose processing fails before verification undergoes neither copy nor
delete: it is left untouched in the pending location. -/
theorem c5_relocation_discipline (env : Env) (bucket key : String)
    (s : RunState) :
    (Action.s3delete bucket key ∈ (processFile env bucket key s).2.trace →
      Action.s3delete bucket key ∉ s.trace →
      env.copyOutcome key = .ok () ∧
      ∃ pre, (processFile env bucket key s).2.trace = pre ++
        [Action.s3copy bucket key (strReplace key "processed/" "completed/"),
         Action.s3delete bucket key]) ∧
    (Action.s3copy bucket key (strReplace key "processed/" "completed/") ∈
        (processFile env bucket key s).2.trace →
      Action.s3copy bucket key (strReplace key "processed/" "completed/") ∉
        s.trace →
      VerifiedLoad env (tableNameOf key)
        ((processFile env bucket key s).2.trace)) := by
  rcases processFile_shape env bucket key s with ⟨t, ht, hn, -⟩ |
    ⟨t, ht, hn, -, hv⟩ | ⟨t, ht, hn, hc, hv⟩
  · constructor
    · intro hd hns
      rw [ht] at hd
      rcases List.mem_append.mp hd with h | h
      · exact absurd h hns
      · have := hn _ h
        simp [Action.isS3Write] at this
    · intro hcp hns
      rw [ht] at hcp
      rcases List.mem_append.mp hcp with h | h
      · exact absurd h hns
      · have := hn _ h
        simp [Action.isS3Write] at this
  · constructor
    · intro hd hns
      rw [ht] at hd
      rcases List.mem_append.mp hd with h | h
      · rcases List.mem_append.mp h with h2 | h2
        · exact absurd h2 hns
        · have := hn _ h2
          simp [Action.isS3Write] at this
      · simp at h
    · intro hcp hns
      rw [ht]
      exact hv.append_right
  · constructor
    · intro hd hns
      exact ⟨hc, s.trace ++ t, by rw [ht]⟩
    · intro hcp hns
      rw [ht]
      exact hv.append_right

theorem c5_relocation_discipline_witness :
    witEnv.copyOutcome "processed/a.csv" = .ok () ∧
    ∃ pre, (processFile witEnv "b" "processed/a.csv" initState).2.trace =
      pre ++
      [Action.s3copy "b" "processed/a.csv"
        (strReplace "processed/a.csv" "processed/" "completed/"),
       Action.s3delete "b" "processed/a.csv"] :=
  (c5_relocation_discipline witEnv "b" "processed/a.csv" initState).1
    (by decide) (by decide)

theorem c9_waiter_contract_witness :
    wait_for_query_completion witEnv 0 true = .ok (some [[1]]) :=
  (c9_waiter_contract witEnv 0 true).2 0 (by omega) rfl
    (fun l hl => absurd hl (by omega))

theorem c2_stability_watcher_witness :
    wfpAux witEnv ∅ 0 0 60 = (listedSet witEnv 0, 13) :=
  (c2_stability_watcher witEnv (listedSet witEnv 0) 0).2.1
    (fun i _ => rfl) (fun i hi => absurd hi (by omega)) (by decide) (by omega)

/-- C10: if the table-existence check itself fails — its metadata statement
raises, or its wait fails or times out — the `try/except` swallows the
error and reports the table absent, and the per-file pipeline then still
issues the creation statement for that file instead of failing the file
with the existence-check error. -/
theorem c10_existence_check_error_swallowed (env : Env) (tn : String)
    (s : RunState) :
    (((∃ e, env.execOutcome s.nExec = .error e) ∨
       (∃ e, wait_for_query_completion env s.nExec true = .error e)) →
      (check_table_exists env tn s).1 = false) ∧
    (∀ bucket key content df,
      env.getOutcome key = .ok content →
      env.readCsv content = .ok df →
      ((∃ e, env.execOutcome s.nExec = .error e) ∨
       (∃ e, wait_for_query_completion env s.nExec true = .error e)) →
      Action.execute (s.nExec + 1)
          (Sql.createTable (tableNameOf key) (colDefs df)) ∈
        (processFile env bucket key s).2.trace) := by
  constructor
  · exact check_table_exists_false_of_error env tn s
  · intro bucket key content df hget hread herr
    have hchkF : (check_table_exists env (tableNameOf key)
        ⟨s.nExec, s.trace ++ [Action.s3get bucket key]⟩).1 = false :=
      check_table_exists_false_of_error env (tableNameOf key) _ herr
    simp only [processFile, hget, hread]
    obtain ⟨b, s1, hpair⟩ : ∃ b st, check_table_exists env (tableNameOf key)
        ⟨s.nExec, s.trace ++ [Action.s3get bucket key]⟩ = (b, st) :=
      ⟨_, _, rfl⟩
    have hb : b = false := by
      rw [hpair] at hchkF
      exact hchkF
    subst hb
    have hs1 : s1 = ⟨s.nExec + 1, s.trace ++ [Action.s3get bucket key] ++
        [Action.execute s.nExec (Sql.existsQuery (tableNameOf key))]⟩ := by
      have h := check_table_exists_state env (tableNameOf key)
        ⟨s.nExec, s.trace ++ [Action.s3get bucket key]⟩
      rw [hpair] at h
      exact h
    rw [hpair]
    dsimp only
    rw [if_neg (by simp)]
    split
    · rename_i e s2 heq4
      have hs2 : s2 = ⟨s1.nExec + 1, s1.trace ++
          [.execute s1.nExec (.createTable (tableNameOf key) (colDefs df))]⟩ := by
        have h := create_table_state env (tableNameOf key) df s1
        rw [heq4] at h
        exact h
      show Action.execute (s.nExec + 1) _ ∈ s2.trace
      rw [hs2, hs1]
      simp
    · rename_i u s2 heq4
      have hs2 : s2 = ⟨s1.nExec + 1, s1.trace ++
          [.execute s1.nExec (.createTable (tableNameOf key) (colDefs df))]⟩ := by
        have h := create_table_state env (tableNameOf key) df s1
        rw [heq4] at h
        exact h
      obtain ⟨u', hu'⟩ := processTail_trace_extends env bucket key s2
      rw [hu', hs2, hs1]
      simp

theorem c10_existence_check_error_swallowed_witness :
    (check_table_exists witEnvBoom "t" initState).1 = false ∧
    Action.execute 1 (Sql.createTable (tableNameOf "processed/a.csv")
        (colDefs ⟨[("id", ⟨PdDtype.int64, [some "1"]⟩)]⟩)) ∈
      (processFile witEnvBoom "b" "processed/a.csv" initState).2.trace := by
  have h := c10_existence_check_error_swallowed witEnvBoom "t" initState
  have h2 := c10_existence_check_error_swallowed witEnvBoom "t" initState
  exact ⟨h.1 (Or.inl ⟨"boom", rfl⟩),
    h2.2 "b" "processed/a.csv" "id" _ rfl rfl (Or.inl ⟨"boom", rfl⟩)⟩

/-- C3: a file whose COPY statement reaches `FINISHED` but whose post-load
row-count query returns 0 has its load raise, so the per-file handler
records it in the failure list and not in the success list. -/
theorem c3_zero_count_is_failure (env : Env) (bucket key : String)
    (rest : List String) (s : RunState) (content : String) (df : DataFrame)
    (hget : env.getOutcome key = .ok content)
    (hread : env.readCsv content = .ok df)
    (hchk : (check_table_exists env (tableNameOf key)
        ⟨s.nExec, s.trace ++ [Action.s3get bucket key]⟩).1 = true)
    (hexec1 : env.execOutcome (s.nExec + 1) = .ok ())
    (hfin1 : ∃ j, j < 60 ∧ env.status (s.nExec + 1) j = .finished ∧
      ∀ l, l < j → env.status (s.nExec + 1) l = .running)
    (hexec2 : env.execOutcome (s.nExec + 2) = .ok ())
    (hfin2 : ∃ j, j < 60 ∧ env.status (s.nExec + 2) j = .finished ∧
      ∀ l, l < j → env.status (s.nExec + 2) l = .running)
    (hzero : ∃ vr rows,
      env.statementResult (s.nExec + 2) = .ok ((0 :: vr) :: rows))
    (hnr : key ∉ rest) :
    (∃ e, (processFile env bucket key s).1 = .error e) ∧
    key ∈ ((processLoop env bucket (key :: rest) s).1.2.map Prod.fst) ∧
    key ∉ (processLoop env bucket (key :: rest) s).1.1 := by
  obtain ⟨b, s1, hpair⟩ : ∃ b st, check_table_exists env (tableNameOf key)
      ⟨s.nExec, s.trace ++ [Action.s3get bucket key]⟩ = (b, st) :=
    ⟨_, _, rfl⟩
  have hb : b = true := by
    rw [hpair] at hchk
    exact hchk
  subst hb
  have hs1 : s1 = ⟨s.nExec + 1, s.trace ++ [Action.s3get bucket key] ++
      [Action.execute s.nExec (Sql.existsQuery (tableNameOf key))]⟩ := by
    have h := check_table_exists_state env (tableNameOf key)
      ⟨s.nExec, s.trace ++ [Action.s3get bucket key]⟩
    rw [hpair] at h
    exact h
  obtain ⟨vr, rows, hres⟩ := hzero
  obtain ⟨j, hj, hfin, hrun⟩ := hfin2
  have hw2 : wait_for_query_completion env (s.nExec + 2) true =
      .ok (some ((0 :: vr) :: rows)) := by
    have h := waitAux_finished env (s.nExec + 2) true 60 0 j hj
      (by simpa using hfin) (fun l hl => by simpa using hrun l hl)
    show waitAux env (s.nExec + 2) true 0 60 = _
    rw [h, hres]
    simp [Except.toOption]
  have hn1 : s1.nExec = s.nExec + 1 := by rw [hs1]
  have hloadErr : ∃ e,
      (load_data_to_redshift env (tableNameOf key) bucket key s1).1 =
        .error e := by
    rcases load_data_cases env (tableNameOf key) bucket key s1 with
      ⟨-, -, v, vr', rows', hw, hv⟩ | ⟨he, -⟩
    · rw [hn1] at hw
      have hinj := hw.symm.trans hw2
      simp at hinj
      exact absurd hinj.1.1 hv
    · exact he
  have hred : processFile env bucket key s = processTail env bucket key s1 := by
    simp only [processFile, hget, hread]
    rw [hpair]
    dsimp only
    rw [if_pos rfl]
  obtain ⟨e, s', htail⟩ : ∃ e s',
      processTail env bucket key s1 = (.error e, s') := by
    unfold processTail
    split
    · rename_i e s3 heq
      exact ⟨e, s3, rfl⟩
    · rename_i u s3 heq
      obtain ⟨e, he⟩ := hloadErr
      rw [heq] at he
      simp at he
  have hpf : processFile env bucket key s = (.error e, s') := hred.trans htail
  refine ⟨⟨e, by rw [hpf]⟩, ?_⟩
  exact processLoop_head_error env bucket key rest s e s' hpf hnr

theorem c3_zero_count_is_failure_witness :
    (∃ e, (processFile witEnvZero "b" "processed/a.csv" initState).1 =
      .error e) ∧
    "processed/a.csv" ∈ ((processLoop witEnvZero "b" ["processed/a.csv"]
      initState).1.2.map Prod.fst) ∧
    "processed/a.csv" ∉ (processLoop witEnvZero "b" ["processed/a.csv"]
      initState).1.1 :=
  c3_zero_count_is_failure witEnvZero "b" "processed/a.csv" [] initState
    "id" ⟨[("id", ⟨PdDtype.int64, [some "1"]⟩)]⟩ rfl rfl (by decide) rfl
    ⟨0, by omega, rfl, fun l hl => absurd hl (by omega)⟩ rfl
    ⟨0, by omega, rfl, fun l hl => absurd hl (by omega)⟩
    ⟨[], [], rfl⟩ (by simp)
end DataBridge
